import Mathlib

/-!
Shallow embedding of the interface-repair algorithms of
src/src/gsCore/gsMultiBasis.hpp (G+Smo, class gsMultiBasis):
repairInterface (dispatch on dimension), repairInterfaceFindElements<d>
(general-dimension pairwise merge and refinement-box emitter) and
repairInterface2d (sorted one-dimensional merge).

Machine integers (C++ unsigned) are modelled as Nat.  All subtractions
performed by the source act on values where the minuend dominates
(coordinates within the domain's upper corner), so Nat truncated
subtraction agrees with unsigned subtraction there; theorems that depend
on a subtraction carry the corresponding in-bounds hypotheses.  Left and
right bit shifts are Nat shifts; coordinates are far below 2^32 (they are
bounded by the tree's index-level resolution), so no wrap-around occurs.
GISMO_ASSERT is modelled as fatal: a function that can assert returns an
Option and yields none where the source would assert.
-/

namespace Gismo

/-- A hierarchical box as produced by tree().getBoxesOnSide: integer lower
and upper corners (component j meaningful for j below the dimension) and a
refinement level. -/
@[ext]
structure HBox where
  lo : Nat → Nat
  up : Nat → Nat
  level : Nat

/-- The query surface of one patch's hierarchical tree used by the repair
routines: getIndexLevel(), getMaxInsLevel(), upperCorner(), and the box
list returned by getBoxesOnSide for the interface side in question. -/
structure TreeQuery where
  indexLevel : Nat
  maxInsLevel : Nat
  upperCorner : Nat → Nat
  sideBoxes : List HBox

/-- The interface descriptor: the two side indices (gismo boxSide::index,
west=1 east=2 south=3 north=4 front=5 back=6), the direction map and the
per-axis orientation flags of the boundaryInterface. -/
structure IfaceGeom where
  side0 : Nat
  side1 : Nat
  dirMap : Nat → Nat
  dirOrient : Nat → Bool

/-- A merged interface segment (one entry of the vector iU in
repairInterfaceFindElements): tmp[0]=loA, tmp[1]=loB, tmp[2]=upA,
tmp[3]=upB, tmp[4]=level0, tmp[5]=level1. -/
structure MSeg where
  loA : Nat
  loB : Nat
  upA : Nat
  upB : Nat
  lev0 : Nat
  lev1 : Nat
deriving DecidableEq

/-- Source line 261: indexLevelUse is the larger of the two index levels,
written as a conditional in the source. -/
def indexLevelUse (t0 t1 : TreeQuery) : Nat :=
  if t0.indexLevel > t1.indexLevel then t0.indexLevel else t1.indexLevel

/-- Source lines 266-272: the tree's upper corner rescaled to the common
reference level by a left shift of the index-level difference (the loop
touches exactly the components below the dimension). -/
def upperCornAt (d iLU : Nat) (t : TreeQuery) : Nat → Nat :=
  fun i => if i < d then t.upperCorner i <<< (iLU - t.indexLevel) else t.upperCorner i

/-- Source lines 284-290: the first side's boundary boxes rescaled to the
reference level by a left shift of (indexLevelUse - maxInsLevel). -/
def normBox0 (d e : Nat) (b : HBox) : HBox :=
  ⟨fun j => if j < d then b.lo j <<< e else b.lo j,
   fun j => if j < d then b.up j <<< e else b.up j,
   b.level⟩

/-- Source lines 293-308, one iteration jj of the inner loop: component
j = dirMap jj of the second side's box is rescaled, and reflected about the
second side's upper corner when the orientation of axis jj is not
preserved. -/
def normFlipStep (e : Nat) (dm : Nat → Nat) (dor : Nat → Bool) (uc1 : Nat → Nat)
    (b : HBox) (jj : Nat) : HBox :=
  let j := dm jj
  let lo2 := b.lo j <<< e
  let up2 := b.up j <<< e
  if dor jj then
    { b with lo := Function.update b.lo j lo2, up := Function.update b.up j up2 }
  else
    { b with lo := Function.update b.lo j (uc1 j - up2), up := Function.update b.up j (uc1 j - lo2) }

/-- Source lines 292-308: the full normalization and orientation mapping of
one boundary box of the second side (the loop over jj). -/
def normBox1 (d e : Nat) (dm : Nat → Nat) (dor : Nat → Bool) (uc1 : Nat → Nat)
    (b : HBox) : HBox :=
  (List.range d).foldl (normFlipStep e dm dor uc1) b

/-- The orientation transform alone (normBox1 with a zero rescaling shift):
the reflection applied to side-two data before comparison and, inversely,
to emitted boxes written back in side-two's frame. -/
def orientMap (d : Nat) (dm : Nat → Nat) (dor : Nat → Bool) (uc1 : Nat → Nat)
    (b : HBox) : HBox :=
  normBox1 d 0 dm dor uc1 b

/-- Source lines 320-341: the tangential axes (a,b) and the normal axis c of
the first side from its direction; for d = 2 the b axis is set to the a
axis.  The impossible default branch stores 99, as the source does. -/
def axesA (d dir : Nat) : Nat × Nat × Nat :=
  let p : Nat × Nat × Nat :=
    match dir with
    | 0 => (1, 2, 0)
    | 1 => (0, 2, 1)
    | 2 => (0, 1, 2)
    | _ => (99, 99, 99)
  if d = 2 then (p.1, p.1, p.2.2) else p

/-- Source lines 351-369: every pair of one box per side is tested for
strict overlap on the tangential axes (a0,b0 against a1,b1); an overlapping
pair contributes the intersection tagged with both levels. -/
def mergedSegs (a0 b0 a1 b1 : Nat) (bxs0 bxs1 : List HBox) : List MSeg :=
  bxs0.flatMap fun x0 =>
    bxs1.filterMap fun x1 =>
      if x0.lo a0 < x1.up a1 ∧ x0.lo b0 < x1.up b1 ∧
         x1.lo a1 < x0.up a0 ∧ x1.lo b1 < x0.up b0 then
        some ⟨max (x0.lo a0) (x1.lo a1), max (x0.lo b0) (x1.lo b1),
              min (x0.up a0) (x1.up a1), min (x0.up b0) (x1.up b1),
              x0.level, x1.level⟩
      else none

/-- Source lines 404-427: the scratch vector tmpvec after one segment's box
construction: the new level at position 0, the tangential extent of the
segment coarsened to Luse at positions 1+a and 1+d+a (and 1+b, 1+d+b when
d = 3), and the single-cell normal slab at 1+c and 1+d+c chosen by the
parity of the refined side's index. -/
def tmpvecFor (d iLU Luse refSideIndex upperCornOnLevel a b c : Nat)
    (sg : MSeg) (tv : Nat → Nat) : Nat → Nat :=
  let t1 := Function.update tv 0 Luse
  let t2 := Function.update t1 (1 + a) (sg.loA >>> (iLU - Luse))
  let t3 := Function.update t2 (1 + d + a) (sg.upA >>> (iLU - Luse))
  let t4 :=
    if d = 3 then
      Function.update
        (Function.update t3 (1 + b) (sg.loB >>> (iLU - Luse)))
        (1 + d + b) (sg.upB >>> (iLU - Luse))
    else t3
  if refSideIndex % 2 = 1 then
    Function.update (Function.update t4 (1 + c) 0) (1 + d + c) 1
  else
    Function.update (Function.update t4 (1 + c) (upperCornOnLevel - 1)) (1 + d + c) upperCornOnLevel

/-- Source lines 438-449: when the second side is refined, every tangential
component whose axis orientation is not preserved is reflected about the
second side's upper corner coarsened to Luse, in place on the scratch
vector. -/
def flipTvStep (d iLU Luse c : Nat) (uc1 : Nat → Nat) (dm : Nat → Nat) (dor : Nat → Bool)
    (t : Nat → Nat) (jj : Nat) : Nat → Nat :=
  let j := dm jj
  if j ≠ c ∧ dor jj = false then
    let ucl := uc1 j >>> (iLU - Luse)
    Function.update (Function.update t (1 + j) (ucl - t (1 + d + j))) (1 + d + j) (ucl - t (1 + j))
  else t

/-- Source lines 438-449: the write-back loop over jj applying flipTvStep to
the scratch vector. -/
def flipTmpvec (d iLU Luse c : Nat) (uc1 : Nat → Nat) (dm : Nat → Nat) (dor : Nat → Bool)
    (tv : Nat → Nat) : Nat → Nat :=
  (List.range d).foldl (flipTvStep d iLU Luse c uc1 dm dor) tv

/-- Source lines 376-453, one iteration of the loop over iU: a segment with
equal levels emits nothing; otherwise the refinement box is built on the
scratch vector and appended to the first side's requests when L0 < L1
(Luse = L1) and, after the orientation write-back, to the second side's
requests when L1 < L0. -/
def emitSeg (d iLU side0 side1 a0 b0 c0 a1 b1 c1 : Nat) (uc0 uc1 : Nat → Nat)
    (dm : Nat → Nat) (dor : Nat → Bool) (tv : Nat → Nat) (sg : MSeg) :
    (Nat → Nat) × List Nat × List Nat :=
  if sg.lev0 = sg.lev1 then (tv, [], [])
  else if sg.lev0 < sg.lev1 then
    let Luse := sg.lev1
    let tv5 := tmpvecFor d iLU Luse side0 (uc0 c0 >>> (iLU - Luse)) a0 b0 c0 sg tv
    (tv5, (List.range (1 + 2 * d)).map tv5, [])
  else
    let Luse := sg.lev0
    let tv5 := tmpvecFor d iLU Luse side1 (uc1 c1 >>> (iLU - Luse)) a1 b1 c1 sg tv
    let tv6 := flipTmpvec d iLU Luse c1 uc1 dm dor tv5
    (tv6, [], (List.range (1 + 2 * d)).map tv6)

/-- One iteration of the emitter loop: the scratch vector is threaded and
the per-segment output appended to the running request lists. -/
def emitStep (d iLU side0 side1 a0 b0 c0 a1 b1 c1 : Nat) (uc0 uc1 : Nat → Nat)
    (dm : Nat → Nat) (dor : Nat → Bool)
    (st : (Nat → Nat) × List Nat × List Nat) (sg : MSeg) :
    (Nat → Nat) × List Nat × List Nat :=
  let r := emitSeg d iLU side0 side1 a0 b0 c0 a1 b1 c1 uc0 uc1 dm dor st.1 sg
  (r.1, st.2.1 ++ r.2.1, st.2.2 ++ r.2.2)

/-- Source lines 371-455: the emitter loop over all merged segments,
threading the scratch vector (zero-initialized at declaration) and
accumulating the two request lists in order. -/
def emitAll (d iLU side0 side1 a0 b0 c0 a1 b1 c1 : Nat) (uc0 uc1 : Nat → Nat)
    (dm : Nat → Nat) (dor : Nat → Bool) (segs : List MSeg) : List Nat × List Nat :=
  let fin := segs.foldl (emitStep d iLU side0 side1 a0 b0 c0 a1 b1 c1 uc0 uc1 dm dor)
    ((fun _ => 0), [], [])
  (fin.2.1, fin.2.2)

/-- The merged interface mesh computed by repairInterfaceFindElements
(source lines 260-369): both sides' boundary boxes rescaled to the common
reference level, the second side's additionally orientation mapped, then
all strictly overlapping pairs intersected. -/
def mergedSegsOf (d : Nat) (bi : IfaceGeom) (t0 t1 : TreeQuery) : List MSeg :=
  let iLU := indexLevelUse t0 t1
  let uc1 := upperCornAt d iLU t1
  let bxs0 := t0.sideBoxes.map (normBox0 d (iLU - t0.maxInsLevel))
  let bxs1 := t1.sideBoxes.map (normBox1 d (iLU - t1.maxInsLevel) bi.dirMap bi.dirOrient uc1)
  let ax := axesA d ((bi.side0 - 1) / 2)
  mergedSegs ax.1 ax.2.1 (bi.dirMap ax.1) (bi.dirMap ax.2.1) bxs0 bxs1

/-- Source lines 229-458: repairInterfaceFindElements<d>.  Returns the two
refinement-request lists and the changed flag (whether either list is
nonempty). -/
def repairInterfaceFindElements (d : Nat) (bi : IfaceGeom) (t0 t1 : TreeQuery) :
    List Nat × List Nat × Bool :=
  let iLU := indexLevelUse t0 t1
  let uc0 := upperCornAt d iLU t0
  let uc1 := upperCornAt d iLU t1
  let ax := axesA d ((bi.side0 - 1) / 2)
  let r := emitAll d iLU bi.side0 bi.side1 ax.1 ax.2.1 ax.2.2
    (bi.dirMap ax.1) (bi.dirMap ax.2.1) (bi.dirMap ax.2.2) uc0 uc1
    bi.dirMap bi.dirOrient (mergedSegsOf d bi t0 t1)
  (r.1, r.2, decide (0 < r.1.length) || decide (0 < r.2.length))

/-- Source lines 217-226: the body of repairInterface after the dispatch,
for one fixed dimension d: the bases are refined (refineElements, abstracted
as the refine argument) only when the corresponding request list is
nonempty, and only when the changed flag is set. -/
def applyRepair (bi : IfaceGeom) (t0 t1 : TreeQuery)
    (refine : TreeQuery → List Nat → TreeQuery) (d : Nat) :
    (TreeQuery × TreeQuery) × Bool :=
  let r := repairInterfaceFindElements d bi t0 t1
  if r.2.2 then
    ((if 0 < r.1.length then refine t0 r.1 else t0,
      if 0 < r.2.1.length then refine t1 r.2.1 else t1), r.2.2)
  else ((t0, t1), r.2.2)

/-- Source lines 196-227: repairInterface.  The switch on the dimension
accepts exactly 2 and 3; any other value hits GISMO_ASSERT(false), modelled
as none. -/
def repairInterface (dim : Nat) (bi : IfaceGeom) (t0 t1 : TreeQuery)
    (refine : TreeQuery → List Nat → TreeQuery) :
    Option ((TreeQuery × TreeQuery) × Bool) :=
  if dim = 2 then some (applyRepair bi t0 t1 refine 2)
  else if dim = 3 then some (applyRepair bi t0 t1 refine 3)
  else none

/-- Source lines 491-497 and 504-510: one side's boundary elements as rows
(startKnot, endKnot, level), the knots rescaled to the reference level. -/
def intfcRows (dir e : Nat) (boxes : List HBox) : List (Nat × Nat × Nat) :=
  boxes.map fun b => (b.lo dir <<< e, b.up dir <<< e, b.level)

/-- Sorting of an interface table by its start column (gsMatrix
sortByColumn(0) in the source). -/
def sortByStart (l : List (Nat × Nat × Nat)) : List (Nat × Nat × Nat) :=
  List.insertionSort (fun r s => r.1 ≤ s.1) l

/-- Source lines 485-498: the first side's sorted interface table of
repairInterface2d. -/
def table0 (bi : IfaceGeom) (t0 t1 : TreeQuery) : List (Nat × Nat × Nat) :=
  let iLU := indexLevelUse t0 t1
  let dir0 := ((bi.side0 - 1) / 2 + 1) % 2
  sortByStart (intfcRows dir0 (iLU - t0.maxInsLevel) t0.sideBoxes)

/-- Source lines 500-534: the second side's interface table: rows rescaled,
reflected about the second side's upper corner when the orientation of the
tangential axis is not preserved, then sorted. -/
def table1 (bi : IfaceGeom) (t0 t1 : TreeQuery) : List (Nat × Nat × Nat) :=
  let iLU := indexLevelUse t0 t1
  let dir0 := ((bi.side0 - 1) / 2 + 1) % 2
  let dir1 := ((bi.side1 - 1) / 2 + 1) % 2
  let rows := intfcRows dir1 (iLU - t1.maxInsLevel) t1.sideBoxes
  let uc1d := t1.upperCorner dir1 <<< (iLU - t1.indexLevel)
  sortByStart (if bi.dirOrient dir0 then rows
               else rows.map fun r => (uc1d - r.2.1, uc1d - r.1, r.2.2))

/-- Source lines 542-573: the two-cursor merge of the sorted tables.  Each
step emits (endKnot, level on first, level on second) ending at the smaller
current end knot and advances the cursor ending there, both on a tie. -/
def mergeIntfc : List (Nat × Nat × Nat) → List (Nat × Nat × Nat) → List (Nat × Nat × Nat)
  | [], _ => []
  | _ :: _, [] => []
  | r0 :: l0, r1 :: l1 =>
    if r0.2.1 = r1.2.1 then
      (r0.2.1, r0.2.2, r1.2.2) :: mergeIntfc l0 l1
    else if r0.2.1 > r1.2.1 then
      (r1.2.1, r0.2.2, r1.2.2) :: mergeIntfc (r0 :: l0) l1
    else
      (r0.2.1, r0.2.2, r1.2.2) :: mergeIntfc l0 (r1 :: l1)
  termination_by l0 l1 => l0.length + l1.length
  decreasing_by all_goals (simp only [List.length_cons]; omega)

/-- Source lines 589-631: the refinement box pushed for the first side when
L0 < L1, by the switch on the first side's index; the default branch
(a 3-D side index) asserts, modelled as none. -/
def refBox0 (iLU side0 : Nat) (uc0 : Nat → Nat) (knot0 knot1 L1 : Nat) : Option (List Nat) :=
  let k0 := knot0 >>> (iLU - L1)
  let k1 := knot1 >>> (iLU - L1)
  match side0 with
  | 1 => some [L1, 0, k0, 1, k1]
  | 2 => some [L1, (uc0 0 >>> (iLU - L1)) - 1, k0, uc0 0 >>> (iLU - L1), k1]
  | 3 => some [L1, k0, 0, k1, 1]
  | 4 => some [L1, k0, (uc0 1 >>> (iLU - L1)) - 1, k1, uc0 1 >>> (iLU - L1)]
  | _ => none

/-- Source lines 633-687: the refinement box pushed for the second side when
L0 > L1: the knot pair reflected about the second side's upper corner when
the orientation is not preserved, coarsened to L0, then the switch on the
second side's index; the default branch asserts, modelled as none. -/
def refBox1 (iLU side1 dir1 : Nat) (op : Bool) (uc1 : Nat → Nat)
    (knot0 knot1 L0 : Nat) : Option (List Nat) :=
  let p := if op then (knot0, knot1) else (uc1 dir1 - knot1, uc1 dir1 - knot0)
  let k0 := p.1 >>> (iLU - L0)
  let k1 := p.2 >>> (iLU - L0)
  match side1 with
  | 1 => some [L0, 0, k0, 1, k1]
  | 2 => some [L0, (uc1 0 >>> (iLU - L0)) - 1, k0, uc1 0 >>> (iLU - L0), k1]
  | 3 => some [L0, k0, 0, k1, 1]
  | 4 => some [L0, k0, (uc1 1 >>> (iLU - L0)) - 1, k1, uc1 1 >>> (iLU - L0)]
  | _ => none

/-- Source lines 575-689: the loop over the merged segments of
repairInterface2d, tracking the running start knot and accumulating the two
request lists. -/
def refLoop2d (iLU side0 side1 dir1 : Nat) (op : Bool) (uc0 uc1 : Nat → Nat) :
    Nat → List (Nat × Nat × Nat) → Option (List Nat × List Nat)
  | _, [] => some ([], [])
  | knot0, sg :: rest =>
    let knot1 := sg.1
    let cur : Option (List Nat × List Nat) :=
      if sg.2.1 < sg.2.2 then
        (refBox0 iLU side0 uc0 knot0 knot1 sg.2.2).map fun v => (v, [])
      else if sg.2.2 < sg.2.1 then
        (refBox1 iLU side1 dir1 op uc1 knot0 knot1 sg.2.1).map fun v => ([], v)
      else some ([], [])
    match cur, refLoop2d iLU side0 side1 dir1 op uc0 uc1 knot1 rest with
    | some e, some r => some (e.1 ++ r.1, e.2 ++ r.2)
    | _, _ => none

/-- The request-list computation of repairInterface2d (source lines
461-689): both sorted tables, the terminal-extent assertion (none when it
fails, and when a table is empty, where the source's last-row access is out
of bounds), the two-cursor merge and the refinement loop. -/
def refPairs2d (bi : IfaceGeom) (t0 t1 : TreeQuery) : Option (List Nat × List Nat) :=
  let iLU := indexLevelUse t0 t1
  let dir1 := ((bi.side1 - 1) / 2 + 1) % 2
  let dir0 := ((bi.side0 - 1) / 2 + 1) % 2
  let tb0 := table0 bi t0 t1
  let tb1 := table1 bi t0 t1
  match tb0.getLast?, tb1.getLast? with
  | some q0, some q1 =>
    if q0.2.1 = q1.2.1 then
      refLoop2d iLU bi.side0 bi.side1 dir1 (bi.dirOrient dir0)
        (upperCornAt 2 iLU t0) (upperCornAt 2 iLU t1) 0 (mergeIntfc tb0 tb1)
    else none
  | _, _ => none

/-- Source lines 461-698: repairInterface2d.  On success the bases are
refined (refineElements, abstracted as the refine argument) only where the
request list is nonempty, and the returned flag says whether any request
was emitted. -/
def repairInterface2d (bi : IfaceGeom) (t0 t1 : TreeQuery)
    (refine : TreeQuery → List Nat → TreeQuery) :
    Option ((TreeQuery × TreeQuery) × Bool) :=
  match refPairs2d bi t0 t1 with
  | none => none
  | some r =>
    some ((if 0 < r.1.length then refine t0 r.1 else t0,
           if 0 < r.2.length then refine t1 r.2 else t1),
          decide (0 < r.1.length) || decide (0 < r.2.length))

/-! Concrete fixtures used by the witness theorems. -/

/-- The identity direction map. -/
def idMap : Nat → Nat := fun j => j

/-- A domain upper corner of 8 on every axis. -/
def ucW : Nat → Nat := fun _ => 8

/-- A concrete box within the bounds of ucW. -/
def bW : HBox := ⟨fun _ => 2, fun _ => 6, 1⟩

/-- West-west interface with the tangential axis (axis 1) flip-oriented. -/
def biW : IfaceGeom := ⟨1, 1, idMap, fun j => j = 0⟩

/-- First witness patch: two boundary elements on the west side, levels 3
and 2, tangential spans 0..4 and 4..8 at resolution 3. -/
def tW0 : TreeQuery :=
  ⟨3, 3, fun _ => 8,
   [⟨fun _ => 0, fun j => if j = 1 then 4 else 1, 3⟩,
    ⟨fun j => if j = 1 then 4 else 0, fun j => if j = 1 then 8 else 1, 2⟩]⟩

/-- Second witness patch: one boundary element at level 2 spanning the full
interface. -/
def tW1 : TreeQuery :=
  ⟨3, 3, fun _ => 8, [⟨fun _ => 0, fun j => if j = 1 then 8 else 1, 2⟩]⟩

/-- A patch with no boundary elements (an already-conforming degenerate
interface). -/
def tWe : TreeQuery := ⟨2, 2, fun _ => 4, []⟩

/-- A concrete merged segment with differing levels. -/
def sgW : MSeg := ⟨0, 0, 4, 4, 2, 3⟩

/-- A zero scratch vector. -/
def tvW : Nat → Nat := fun _ => 0

/-! Helper lemmas about the component folds of the Orientation Mapper. -/

theorem normFlipStep_level (e : Nat) (dm : Nat → Nat) (dor : Nat → Bool) (uc1 : Nat → Nat)
    (b : HBox) (jj : Nat) : (normFlipStep e dm dor uc1 b jj).level = b.level := by
  simp only [normFlipStep]
  split <;> rfl

theorem normFlipStep_ne (e : Nat) (dm : Nat → Nat) (dor : Nat → Bool) (uc1 : Nat → Nat)
    (b : HBox) (jj j : Nat) (h : dm jj ≠ j) :
    (normFlipStep e dm dor uc1 b jj).lo j = b.lo j ∧
    (normFlipStep e dm dor uc1 b jj).up j = b.up j := by
  simp only [normFlipStep]
  split <;>
    exact ⟨Function.update_noteq (Ne.symm h) _ _, Function.update_noteq (Ne.symm h) _ _⟩

theorem normFlipStep_self (e : Nat) (dm : Nat → Nat) (dor : Nat → Bool) (uc1 : Nat → Nat)
    (b : HBox) (jj : Nat) :
    (normFlipStep e dm dor uc1 b jj).lo (dm jj)
      = (if dor jj then b.lo (dm jj) <<< e else uc1 (dm jj) - (b.up (dm jj) <<< e)) ∧
    (normFlipStep e dm dor uc1 b jj).up (dm jj)
      = (if dor jj then b.up (dm jj) <<< e else uc1 (dm jj) - (b.lo (dm jj) <<< e)) := by
  simp only [normFlipStep]
  by_cases hd : dor jj <;> simp [hd, Function.update_same]

theorem foldl_normFlip_level (e : Nat) (dm : Nat → Nat) (dor : Nat → Bool) (uc1 : Nat → Nat)
    (l : List Nat) (b : HBox) :
    (l.foldl (normFlipStep e dm dor uc1) b).level = b.level := by
  induction l generalizing b with
  | nil => rfl
  | cons jj0 t ih =>
    rw [List.foldl_cons, ih, normFlipStep_level]

theorem foldl_normFlip_untouched (e : Nat) (dm : Nat → Nat) (dor : Nat → Bool) (uc1 : Nat → Nat)
    (l : List Nat) (b : HBox) (j : Nat) (h : ∀ jj ∈ l, dm jj ≠ j) :
    (l.foldl (normFlipStep e dm dor uc1) b).lo j = b.lo j ∧
    (l.foldl (normFlipStep e dm dor uc1) b).up j = b.up j := by
  induction l generalizing b with
  | nil => exact ⟨rfl, rfl⟩
  | cons jj0 t ih =>
    rw [List.foldl_cons]
    have h0 := normFlipStep_ne e dm dor uc1 b jj0 j (h jj0 (by simp))
    have ht := ih (normFlipStep e dm dor uc1 b jj0) (fun jj hm => h jj (by simp [hm]))
    exact ⟨ht.1.trans h0.1, ht.2.trans h0.2⟩

theorem foldl_normFlip_touched (e : Nat) (dm : Nat → Nat) (dor : Nat → Bool) (uc1 : Nat → Nat)
    (l : List Nat) (b : HBox) (jj : Nat) (hmem : jj ∈ l) (hnd : (l.map dm).Nodup) :
    (l.foldl (normFlipStep e dm dor uc1) b).lo (dm jj)
      = (if dor jj then b.lo (dm jj) <<< e else uc1 (dm jj) - (b.up (dm jj) <<< e)) ∧
    (l.foldl (normFlipStep e dm dor uc1) b).up (dm jj)
      = (if dor jj then b.up (dm jj) <<< e else uc1 (dm jj) - (b.lo (dm jj) <<< e)) := by
  induction l generalizing b with
  | nil => cases hmem
  | cons jj0 t ih =>
    rw [List.map_cons, List.nodup_cons] at hnd
    rw [List.foldl_cons]
    rcases List.mem_cons.mp hmem with heq | hmemt
    · subst heq
      have hnt : ∀ x ∈ t, dm x ≠ dm jj := fun x hx hcontra => by
        exact hnd.1 (hcontra ▸ List.mem_map_of_mem dm hx)
      have hu := foldl_normFlip_untouched e dm dor uc1 t
        (normFlipStep e dm dor uc1 b jj) (dm jj) hnt
      have hs := normFlipStep_self e dm dor uc1 b jj
      exact ⟨hu.1.trans hs.1, hu.2.trans hs.2⟩
    · have hne : dm jj0 ≠ dm jj := fun hcontra => by
        exact hnd.1 (hcontra ▸ List.mem_map_of_mem dm hmemt)
      have h0 := normFlipStep_ne e dm dor uc1 b jj0 (dm jj) hne
      have hrec := ih (normFlipStep e dm dor uc1 b jj0) hmemt hnd.2
      rw [h0.1, h0.2] at hrec
      exact hrec

theorem flipTvStep_ne (d iLU Luse c : Nat) (uc1 : Nat → Nat) (dm : Nat → Nat) (dor : Nat → Bool)
    (t : Nat → Nat) (jj p : Nat) (h1 : 1 + dm jj ≠ p) (h2 : 1 + d + dm jj ≠ p) :
    flipTvStep d iLU Luse c uc1 dm dor t jj p = t p := by
  simp only [flipTvStep]
  split
  · rw [Function.update_noteq (Ne.symm h2), Function.update_noteq (Ne.symm h1)]
  · rfl

theorem flipTvStep_self (d iLU Luse c : Nat) (uc1 : Nat → Nat) (dm : Nat → Nat) (dor : Nat → Bool)
    (t : Nat → Nat) (jj : Nat) (hj : dm jj < d) :
    flipTvStep d iLU Luse c uc1 dm dor t jj (1 + dm jj)
      = (if dm jj ≠ c ∧ dor jj = false
         then (uc1 (dm jj) >>> (iLU - Luse)) - t (1 + d + dm jj)
         else t (1 + dm jj)) ∧
    flipTvStep d iLU Luse c uc1 dm dor t jj (1 + d + dm jj)
      = (if dm jj ≠ c ∧ dor jj = false
         then (uc1 (dm jj) >>> (iLU - Luse)) - t (1 + dm jj)
         else t (1 + d + dm jj)) := by
  simp only [flipTvStep]
  split
  · constructor
    · rw [Function.update_noteq (by omega), Function.update_same]
    · rw [Function.update_same]
  · exact ⟨rfl, rfl⟩

theorem foldl_flipTv_untouched (d iLU Luse c : Nat) (uc1 : Nat → Nat) (dm : Nat → Nat)
    (dor : Nat → Bool) (l : List Nat) (tv : Nat → Nat) (p : Nat)
    (h : ∀ jj ∈ l, 1 + dm jj ≠ p ∧ 1 + d + dm jj ≠ p) :
    l.foldl (flipTvStep d iLU Luse c uc1 dm dor) tv p = tv p := by
  induction l generalizing tv with
  | nil => rfl
  | cons jj0 t ih =>
    rw [List.foldl_cons]
    have h0 := h jj0 (by simp)
    rw [ih (flipTvStep d iLU Luse c uc1 dm dor tv jj0) (fun jj hm => h jj (by simp [hm])),
      flipTvStep_ne d iLU Luse c uc1 dm dor tv jj0 p h0.1 h0.2]

theorem foldl_flipTv_touched (d iLU Luse c : Nat) (uc1 : Nat → Nat) (dm : Nat → Nat)
    (dor : Nat → Bool) (l : List Nat) (tv : Nat → Nat) (jj : Nat) (hmem : jj ∈ l)
    (hnd : (l.map dm).Nodup) (hlt : ∀ x ∈ l, dm x < d) :
    l.foldl (flipTvStep d iLU Luse c uc1 dm dor) tv (1 + dm jj)
      = (if dm jj ≠ c ∧ dor jj = false
         then (uc1 (dm jj) >>> (iLU - Luse)) - tv (1 + d + dm jj)
         else tv (1 + dm jj)) ∧
    l.foldl (flipTvStep d iLU Luse c uc1 dm dor) tv (1 + d + dm jj)
      = (if dm jj ≠ c ∧ dor jj = false
         then (uc1 (dm jj) >>> (iLU - Luse)) - tv (1 + dm jj)
         else tv (1 + d + dm jj)) := by
  induction l generalizing tv with
  | nil => cases hmem
  | cons jj0 t ih =>
    rw [List.map_cons, List.nodup_cons] at hnd
    rw [List.foldl_cons]
    rcases List.mem_cons.mp hmem with heq | hmemt
    · subst heq
      have hjd : dm jj < d := hlt jj (by simp)
      have hnt : ∀ x ∈ t, 1 + dm x ≠ 1 + dm jj ∧ 1 + d + dm x ≠ 1 + dm jj := by
        intro x hx
        have hxd : dm x < d := hlt x (by simp [hx])
        have hne : dm x ≠ dm jj := fun hc => hnd.1 (hc ▸ List.mem_map_of_mem dm hx)
        omega
      have hnt2 : ∀ x ∈ t, 1 + dm x ≠ 1 + d + dm jj ∧ 1 + d + dm x ≠ 1 + d + dm jj := by
        intro x hx
        have hxd : dm x < d := hlt x (by simp [hx])
        have hne : dm x ≠ dm jj := fun hc => hnd.1 (hc ▸ List.mem_map_of_mem dm hx)
        omega
      have hu1 := foldl_flipTv_untouched d iLU Luse c uc1 dm dor t
        (flipTvStep d iLU Luse c uc1 dm dor tv jj) (1 + dm jj) hnt
      have hu2 := foldl_flipTv_untouched d iLU Luse c uc1 dm dor t
        (flipTvStep d iLU Luse c uc1 dm dor tv jj) (1 + d + dm jj) hnt2
      have hs := flipTvStep_self d iLU Luse c uc1 dm dor tv jj hjd
      exact ⟨hu1.trans hs.1, hu2.trans hs.2⟩
    · have hjd : dm jj < d := hlt jj hmem
      have h0d : dm jj0 < d := hlt jj0 (by simp)
      have hne : dm jj0 ≠ dm jj := fun hc => hnd.1 (hc ▸ List.mem_map_of_mem dm hmemt)
      have e1 := flipTvStep_ne d iLU Luse c uc1 dm dor tv jj0 (1 + dm jj)
        (by omega) (by omega)
      have e2 := flipTvStep_ne d iLU Luse c uc1 dm dor tv jj0 (1 + d + dm jj)
        (by omega) (by omega)
      have hrec := ih (flipTvStep d iLU Luse c uc1 dm dor tv jj0) hmemt hnd.2
        (fun x hx => hlt x (by simp [hx]))
      rw [e1, e2] at hrec
      exact hrec

theorem nodup_range_map_of_inj (d : Nat) (dm : Nat → Nat)
    (hinj : ∀ i < d, ∀ j < d, dm i = dm j → i = j) :
    ((List.range d).map dm).Nodup := by
  refine List.Nodup.map_on ?_ (List.nodup_range d)
  intro x hx y hy hxy
  exact hinj x (List.mem_range.mp hx) y (List.mem_range.mp hy) hxy

/-- Claim C4: in the normalization of the second side's boundary boxes,
every tangential axis jj with orientation flag false has its component
j = dirMap jj replaced by the reflection about the second side's upper
corner of the rescaled interval; and the write-back of an emitted box for
the second patch applies the same reflection at the emission level to the
tangential entries of the scratch vector, expressing the box in that
patch's native frame. -/
theorem claim_c4_orientation_reflection
    (d e : Nat) (dm : Nat → Nat) (dor : Nat → Bool) (uc1 : Nat → Nat) (b : HBox) (jj : Nat)
    (hinj : ∀ i < d, ∀ j < d, dm i = dm j → i = j)
    (hrange : ∀ i < d, dm i < d)
    (hjj : jj < d) (hflag : dor jj = false) :
    ((normBox1 d e dm dor uc1 b).lo (dm jj) = uc1 (dm jj) - (b.up (dm jj) <<< e) ∧
     (normBox1 d e dm dor uc1 b).up (dm jj) = uc1 (dm jj) - (b.lo (dm jj) <<< e)) ∧
    ∀ iLU Luse c tv, dm jj ≠ c →
      flipTmpvec d iLU Luse c uc1 dm dor tv (1 + dm jj)
        = (uc1 (dm jj) >>> (iLU - Luse)) - tv (1 + d + dm jj) ∧
      flipTmpvec d iLU Luse c uc1 dm dor tv (1 + d + dm jj)
        = (uc1 (dm jj) >>> (iLU - Luse)) - tv (1 + dm jj) := by
  have hnd := nodup_range_map_of_inj d dm hinj
  have hmem : jj ∈ List.range d := List.mem_range.mpr hjj
  constructor
  · have h := foldl_normFlip_touched e dm dor uc1 (List.range d) b jj hmem hnd
    rw [hflag] at h
    simpa [normBox1] using h
  · intro iLU Luse c tv hc
    have h := foldl_flipTv_touched d iLU Luse c uc1 dm dor (List.range d) tv jj hmem hnd
      (fun x hx => hrange x (List.mem_range.mp hx))
    rw [if_pos ⟨hc, hflag⟩, if_pos ⟨hc, hflag⟩] at h
    simpa [flipTmpvec] using h

/-- Witness for C4 at a concrete flipped axis: the box 2..6 inside the
domain 0..8 lands at 2..6 reflected. -/
theorem claim_c4_witness :
    (normBox1 2 0 idMap biW.dirOrient ucW bW).lo (idMap 1)
      = ucW (idMap 1) - (bW.up (idMap 1) <<< 0) ∧
    (normBox1 2 0 idMap biW.dirOrient ucW bW).up (idMap 1)
      = ucW (idMap 1) - (bW.lo (idMap 1) <<< 0) :=
  (claim_c4_orientation_reflection 2 0 idMap biW.dirOrient ucW bW 1
    (by decide) (by decide) (by decide) (by decide)).1

/-- Claim C5: the orientation transform is an involution: applied twice
(forward, then as the inverse used for writing back) it reproduces every
box whose components lie within the domain bounds, for every axis
permutation and every combination of flip flags. -/
theorem claim_c5_orientation_round_trip (d : Nat) (dm : Nat → Nat) (dor : Nat → Bool)
    (uc : Nat → Nat) (b : HBox)
    (hinj : ∀ i < d, ∀ j < d, dm i = dm j → i = j)
    (hbnd : ∀ jj < d, b.lo (dm jj) ≤ uc (dm jj) ∧ b.up (dm jj) ≤ uc (dm jj)) :
    orientMap d dm dor uc (orientMap d dm dor uc b) = b := by
  have hnd := nodup_range_map_of_inj d dm hinj
  have hlevel : ∀ x : HBox, (orientMap d dm dor uc x).level = x.level := fun x =>
    foldl_normFlip_level 0 dm dor uc (List.range d) x
  have key : ∀ jj, jj < d → ∀ x : HBox,
      (orientMap d dm dor uc x).lo (dm jj)
        = (if dor jj then x.lo (dm jj) else uc (dm jj) - x.up (dm jj)) ∧
      (orientMap d dm dor uc x).up (dm jj)
        = (if dor jj then x.up (dm jj) else uc (dm jj) - x.lo (dm jj)) := by
    intro jj hjjd x
    have h := foldl_normFlip_touched 0 dm dor uc (List.range d) x jj
      (List.mem_range.mpr hjjd) hnd
    simpa [orientMap, normBox1, Nat.shiftLeft_zero] using h
  refine HBox.ext (funext fun j => ?_) (funext fun j => ?_) ?_
  · by_cases hex : ∃ jj, jj < d ∧ dm jj = j
    · obtain ⟨jj, hjjd, hdm⟩ := hex
      subst hdm
      rw [(key jj hjjd (orientMap d dm dor uc b)).1]
      by_cases hdor : dor jj
      · rw [if_pos hdor, (key jj hjjd b).1, if_pos hdor]
      · rw [if_neg hdor, (key jj hjjd b).2, if_neg hdor,
          Nat.sub_sub_self (hbnd jj hjjd).1]
    · push_neg at hex
      have hu : ∀ x : HBox, (orientMap d dm dor uc x).lo j = x.lo j := by
        intro x
        have h := foldl_normFlip_untouched 0 dm dor uc (List.range d) x j
          (fun jj hm => hex jj (List.mem_range.mp hm))
        simpa [orientMap, normBox1] using h.1
      rw [hu (orientMap d dm dor uc b), hu b]
  · by_cases hex : ∃ jj, jj < d ∧ dm jj = j
    · obtain ⟨jj, hjjd, hdm⟩ := hex
      subst hdm
      rw [(key jj hjjd (orientMap d dm dor uc b)).2]
      by_cases hdor : dor jj
      · rw [if_pos hdor, (key jj hjjd b).2, if_pos hdor]
      · rw [if_neg hdor, (key jj hjjd b).1, if_neg hdor,
          Nat.sub_sub_self (hbnd jj hjjd).2]
    · push_neg at hex
      have hu : ∀ x : HBox, (orientMap d dm dor uc x).up j = x.up j := by
        intro x
        have h := foldl_normFlip_untouched 0 dm dor uc (List.range d) x j
          (fun jj hm => hex jj (List.mem_range.mp hm))
        simpa [orientMap, normBox1] using h.2
      rw [hu (orientMap d dm dor uc b), hu b]
  · rw [hlevel, hlevel]

/-- Witness for C5 at a concrete box and flip combination. -/
theorem claim_c5_witness :
    orientMap 2 idMap biW.dirOrient ucW (orientMap 2 idMap biW.dirOrient ucW bW) = bW :=
  claim_c5_orientation_round_trip 2 idMap biW.dirOrient ucW bW (by decide) (by decide)

/-- Claim C7: the common reference level is the maximum of the two index
levels; upper corners are rescaled by a left shift of the index-level
difference (the identity when the levels agree), and boundary-box
coordinates by a left shift of the difference to the tree's maximum
insertion level (shown for the first side on every axis and for the second
side on every orientation-preserved axis, where the rescaling is not
composed with the reflection of C4). -/
theorem claim_c7_level_normalizer (d : Nat) (bi : IfaceGeom) (t0 t1 : TreeQuery) (b : HBox)
    (hinj : ∀ i < d, ∀ j < d, bi.dirMap i = bi.dirMap j → i = j) :
    indexLevelUse t0 t1 = max t0.indexLevel t1.indexLevel ∧
    (∀ i < d, upperCornAt d (indexLevelUse t0 t1) t0 i
       = t0.upperCorner i <<< (indexLevelUse t0 t1 - t0.indexLevel)) ∧
    (∀ i < d, upperCornAt d (indexLevelUse t0 t1) t1 i
       = t1.upperCorner i <<< (indexLevelUse t0 t1 - t1.indexLevel)) ∧
    (indexLevelUse t0 t1 = t0.indexLevel →
       ∀ i < d, upperCornAt d (indexLevelUse t0 t1) t0 i = t0.upperCorner i) ∧
    (∀ j < d,
       (normBox0 d (indexLevelUse t0 t1 - t0.maxInsLevel) b).lo j
         = b.lo j <<< (indexLevelUse t0 t1 - t0.maxInsLevel) ∧
       (normBox0 d (indexLevelUse t0 t1 - t0.maxInsLevel) b).up j
         = b.up j <<< (indexLevelUse t0 t1 - t0.maxInsLevel)) ∧
    (∀ jj < d, bi.dirOrient jj = true →
       (normBox1 d (indexLevelUse t0 t1 - t1.maxInsLevel) bi.dirMap bi.dirOrient
          (upperCornAt d (indexLevelUse t0 t1) t1) b).lo (bi.dirMap jj)
         = b.lo (bi.dirMap jj) <<< (indexLevelUse t0 t1 - t1.maxInsLevel) ∧
       (normBox1 d (indexLevelUse t0 t1 - t1.maxInsLevel) bi.dirMap bi.dirOrient
          (upperCornAt d (indexLevelUse t0 t1) t1) b).up (bi.dirMap jj)
         = b.up (bi.dirMap jj) <<< (indexLevelUse t0 t1 - t1.maxInsLevel)) := by
  refine ⟨?_, ?_, ?_, ?_, ?_, ?_⟩
  · unfold indexLevelUse
    split <;> omega
  · intro i hi
    rw [upperCornAt, if_pos hi]
  · intro i hi
    rw [upperCornAt, if_pos hi]
  · intro h i hi
    rw [upperCornAt, if_pos hi, h, Nat.sub_self, Nat.shiftLeft_zero]
  · intro j hj
    constructor <;> · rw [normBox0] ; exact if_pos hj
  · intro jj hjj hflag
    have h := foldl_normFlip_touched (indexLevelUse t0 t1 - t1.maxInsLevel)
      bi.dirMap bi.dirOrient (upperCornAt d (indexLevelUse t0 t1) t1) (List.range d) b jj
      (List.mem_range.mpr hjj) (nodup_range_map_of_inj d bi.dirMap hinj)
    rw [if_pos hflag, if_pos hflag] at h
    exact ⟨h.1, h.2⟩

/-- Witness for C7 at concrete trees: the reference level is the larger
index level. -/
theorem claim_c7_witness :
    indexLevelUse tW0 tW1 = max tW0.indexLevel tW1.indexLevel :=
  (claim_c7_level_normalizer 2 biW tW0 tW1 bW (by decide)).1

/-- Claim C2: in the general-dimension merge, a merged segment exists for a
pair of boundary boxes (one per side) exactly when the strict overlap test
holds on both tangential axes; the segment carries the per-axis
intersection and both levels, and a pair that merely touches (equality on
some tangential comparison) contributes no segment. -/
theorem claim_c2_strict_overlap_merge (a0 b0 a1 b1 : Nat) (bxs0 bxs1 : List HBox)
    (x0 x1 : HBox) :
    (∀ sg, sg ∈ mergedSegs a0 b0 a1 b1 bxs0 bxs1 ↔
       ∃ y0 ∈ bxs0, ∃ y1 ∈ bxs1,
         (y0.lo a0 < y1.up a1 ∧ y0.lo b0 < y1.up b1 ∧
          y1.lo a1 < y0.up a0 ∧ y1.lo b1 < y0.up b0) ∧
         sg = ⟨max (y0.lo a0) (y1.lo a1), max (y0.lo b0) (y1.lo b1),
               min (y0.up a0) (y1.up a1), min (y0.up b0) (y1.up b1),
               y0.level, y1.level⟩) ∧
    ((x0.lo a0 = x1.up a1 ∨ x0.lo b0 = x1.up b1 ∨
      x1.lo a1 = x0.up a0 ∨ x1.lo b1 = x0.up b0) →
       mergedSegs a0 b0 a1 b1 [x0] [x1] = []) := by
  constructor
  · intro sg
    simp only [mergedSegs, List.mem_flatMap, List.mem_filterMap]
    constructor
    · rintro ⟨y0, hy0, y1, hy1, hif⟩
      refine ⟨y0, hy0, y1, hy1, ?_⟩
      split at hif
      · exact ⟨‹_›, (Option.some.inj hif).symm⟩
      · cases hif
    · rintro ⟨y0, hy0, y1, hy1, hcond, hsg⟩
      exact ⟨y0, hy0, y1, hy1, by rw [if_pos hcond, hsg]⟩
  · intro h
    have hnc : ¬(x0.lo a0 < x1.up a1 ∧ x0.lo b0 < x1.up b1 ∧
        x1.lo a1 < x0.up a0 ∧ x1.lo b1 < x0.up b0) := by omega
    simp [mergedSegs, hnc]

/-- Claim C3: the 2-D merge walks the two sorted tables with two cursors,
emitting at each step a segment ending at the smaller of the two current
end knots, tagged with both current levels, advancing the cursor ending
there and both cursors on a tie; and the tables it walks are sorted by
start coordinate. -/
theorem claim_c3_two_cursor_merge (r0 r1 : Nat × Nat × Nat) (l0 l1 l : List (Nat × Nat × Nat)) :
    mergeIntfc (r0 :: l0) (r1 :: l1)
      = (min r0.2.1 r1.2.1, r0.2.2, r1.2.2) ::
          (if r0.2.1 = r1.2.1 then mergeIntfc l0 l1
           else if r1.2.1 < r0.2.1 then mergeIntfc (r0 :: l0) l1
           else mergeIntfc l0 (r1 :: l1)) ∧
    List.Pairwise (fun r s => r.1 ≤ s.1) (sortByStart l) := by
  constructor
  · rw [mergeIntfc]
    split_ifs with h1 h2
    · rw [Nat.min_eq_left (Nat.le_of_eq h1)]
    · rw [Nat.min_eq_right (Nat.le_of_lt h2)]
    · rw [Nat.min_eq_left (by omega)]
  · haveI : IsTotal (Nat × Nat × Nat) (fun r s => r.1 ≤ s.1) :=
      ⟨fun a b => Nat.le_total a.1 b.1⟩
    haveI : IsTrans (Nat × Nat × Nat) (fun r s => r.1 ≤ s.1) :=
      ⟨fun a b c hab hbc => Nat.le_trans hab hbc⟩
    exact List.sorted_insertionSort (fun r s => r.1 ≤ s.1) l

set_option maxHeartbeats 1600000 in
theorem tmpvecFor_reads (d iLU Luse s ucl a b c : Nat) (sg : MSeg) (tv : Nat → Nat)
    (ha : a < d) (hc : c < d) (hac : a ≠ c)
    (hb : d = 3 → b < d ∧ b ≠ a ∧ b ≠ c) :
    tmpvecFor d iLU Luse s ucl a b c sg tv 0 = Luse ∧
    tmpvecFor d iLU Luse s ucl a b c sg tv (1 + a) = sg.loA >>> (iLU - Luse) ∧
    tmpvecFor d iLU Luse s ucl a b c sg tv (1 + d + a) = sg.upA >>> (iLU - Luse) ∧
    (d = 3 →
      tmpvecFor d iLU Luse s ucl a b c sg tv (1 + b) = sg.loB >>> (iLU - Luse) ∧
      tmpvecFor d iLU Luse s ucl a b c sg tv (1 + d + b) = sg.upB >>> (iLU - Luse)) ∧
    (s % 2 = 1 →
      tmpvecFor d iLU Luse s ucl a b c sg tv (1 + c) = 0 ∧
      tmpvecFor d iLU Luse s ucl a b c sg tv (1 + d + c) = 1) ∧
    (s % 2 ≠ 1 →
      tmpvecFor d iLU Luse s ucl a b c sg tv (1 + c) = ucl - 1 ∧
      tmpvecFor d iLU Luse s ucl a b c sg tv (1 + d + c) = ucl) := by
  by_cases hd3 : d = 3
  · obtain ⟨hbd, hba, hbc⟩ := hb hd3
    refine ⟨?_, ?_, ?_, fun _ => ⟨?_, ?_⟩, fun hp => ⟨?_, ?_⟩, fun hp => ⟨?_, ?_⟩⟩ <;>
      · simp only [tmpvecFor]
        split_ifs <;> simp only [Function.update_apply] <;> split_ifs <;>
          first | rfl | omega
  · refine ⟨?_, ?_, ?_, fun h3 => absurd h3 hd3, fun hp => ⟨?_, ?_⟩, fun hp => ⟨?_, ?_⟩⟩ <;>
      · simp only [tmpvecFor]
        split_ifs <;> simp only [Function.update_apply] <;> split_ifs <;>
          first | rfl | omega

/-- Claim C1: for every merged segment whose tagged levels differ, the
emitter produces exactly one refinement request, appended to the side
carrying the lower level; the box it constructs (tmpvecFor, before the
orientation write-back of C4 applied on the second side) stores the level
Luse = max(L0,L1) at position 0, the segment's tangential extent
right-shifted from the reference resolution to Luse on the tangential
axes, and the single-cell normal slab 0..1 for an odd (low) side index or
upperCornOnLevel-1..upperCornOnLevel for an even (high) side index, where
upperCornOnLevel is the refined patch's upper corner right-shifted to
Luse (so passed to tmpvecFor by emitSeg). -/
theorem claim_c1_refinement_box_emitter
    (d iLU side0 side1 a0 b0 c0 a1 b1 c1 : Nat) (uc0 uc1 : Nat → Nat)
    (dm : Nat → Nat) (dor : Nat → Bool) (tv : Nat → Nat) (sg : MSeg)
    (hL : sg.lev0 ≠ sg.lev1) :
    (sg.lev0 < sg.lev1 →
       emitSeg d iLU side0 side1 a0 b0 c0 a1 b1 c1 uc0 uc1 dm dor tv sg
         = (tmpvecFor d iLU (max sg.lev0 sg.lev1) side0
              (uc0 c0 >>> (iLU - max sg.lev0 sg.lev1)) a0 b0 c0 sg tv,
            (List.range (1 + 2 * d)).map
              (tmpvecFor d iLU (max sg.lev0 sg.lev1) side0
                (uc0 c0 >>> (iLU - max sg.lev0 sg.lev1)) a0 b0 c0 sg tv),
            [])) ∧
    (sg.lev1 < sg.lev0 →
       emitSeg d iLU side0 side1 a0 b0 c0 a1 b1 c1 uc0 uc1 dm dor tv sg
         = (flipTmpvec d iLU (max sg.lev0 sg.lev1) c1 uc1 dm dor
              (tmpvecFor d iLU (max sg.lev0 sg.lev1) side1
                (uc1 c1 >>> (iLU - max sg.lev0 sg.lev1)) a1 b1 c1 sg tv),
            [],
            (List.range (1 + 2 * d)).map
              (flipTmpvec d iLU (max sg.lev0 sg.lev1) c1 uc1 dm dor
                (tmpvecFor d iLU (max sg.lev0 sg.lev1) side1
                  (uc1 c1 >>> (iLU - max sg.lev0 sg.lev1)) a1 b1 c1 sg tv)))) ∧
    (∀ s ucl a b c tvx, a < d → c < d → a ≠ c → (d = 3 → b < d ∧ b ≠ a ∧ b ≠ c) →
       tmpvecFor d iLU (max sg.lev0 sg.lev1) s ucl a b c sg tvx 0 = max sg.lev0 sg.lev1 ∧
       tmpvecFor d iLU (max sg.lev0 sg.lev1) s ucl a b c sg tvx (1 + a)
         = sg.loA >>> (iLU - max sg.lev0 sg.lev1) ∧
       tmpvecFor d iLU (max sg.lev0 sg.lev1) s ucl a b c sg tvx (1 + d + a)
         = sg.upA >>> (iLU - max sg.lev0 sg.lev1) ∧
       (d = 3 →
         tmpvecFor d iLU (max sg.lev0 sg.lev1) s ucl a b c sg tvx (1 + b)
           = sg.loB >>> (iLU - max sg.lev0 sg.lev1) ∧
         tmpvecFor d iLU (max sg.lev0 sg.lev1) s ucl a b c sg tvx (1 + d + b)
           = sg.upB >>> (iLU - max sg.lev0 sg.lev1)) ∧
       (s % 2 = 1 →
         tmpvecFor d iLU (max sg.lev0 sg.lev1) s ucl a b c sg tvx (1 + c) = 0 ∧
         tmpvecFor d iLU (max sg.lev0 sg.lev1) s ucl a b c sg tvx (1 + d + c) = 1) ∧
       (s % 2 ≠ 1 →
         tmpvecFor d iLU (max sg.lev0 sg.lev1) s ucl a b c sg tvx (1 + c) = ucl - 1 ∧
         tmpvecFor d iLU (max sg.lev0 sg.lev1) s ucl a b c sg tvx (1 + d + c) = ucl)) := by
  refine ⟨?_, ?_, ?_⟩
  · intro h
    rw [Nat.max_eq_right (Nat.le_of_lt h)]
    simp only [emitSeg, if_neg hL, if_pos h]
  · intro h
    rw [Nat.max_eq_left (Nat.le_of_lt h)]
    have h2 : ¬ sg.lev0 < sg.lev1 := by omega
    simp only [emitSeg, if_neg hL, if_neg h2]
  · intro s ucl a b c tvx ha hc hac hb
    exact tmpvecFor_reads d iLU (max sg.lev0 sg.lev1) s ucl a b c sg tvx ha hc hac hb

/-- Witness for C1 on a concrete segment with levels 2 and 3 on a west
side: the level slot of the emitted request is 3. -/
theorem claim_c1_witness :
    emitSeg 2 3 1 2 1 1 0 1 1 0 ucW ucW idMap (fun _ => true) tvW sgW
      = (tmpvecFor 2 3 (max sgW.lev0 sgW.lev1) 1
           (ucW 0 >>> (3 - max sgW.lev0 sgW.lev1)) 1 1 0 sgW tvW,
         (List.range (1 + 2 * 2)).map
           (tmpvecFor 2 3 (max sgW.lev0 sgW.lev1) 1
             (ucW 0 >>> (3 - max sgW.lev0 sgW.lev1)) 1 1 0 sgW tvW),
         []) :=
  (claim_c1_refinement_box_emitter 2 3 1 2 1 1 0 1 1 0 ucW ucW idMap (fun _ => true)
    tvW sgW (by decide)).1 (by decide)

theorem emitStep_conforming (d iLU side0 side1 a0 b0 c0 a1 b1 c1 : Nat)
    (uc0 uc1 : Nat → Nat) (dm : Nat → Nat) (dor : Nat → Bool)
    (st : (Nat → Nat) × List Nat × List Nat) (sg : MSeg) (h : sg.lev0 = sg.lev1) :
    emitStep d iLU side0 side1 a0 b0 c0 a1 b1 c1 uc0 uc1 dm dor st sg = st := by
  simp only [emitStep, emitSeg, if_pos h, List.append_nil]

theorem emitFold_conforming (d iLU side0 side1 a0 b0 c0 a1 b1 c1 : Nat)
    (uc0 uc1 : Nat → Nat) (dm : Nat → Nat) (dor : Nat → Bool) (segs : List MSeg)
    (h : ∀ sg ∈ segs, sg.lev0 = sg.lev1) :
    ∀ st, segs.foldl (emitStep d iLU side0 side1 a0 b0 c0 a1 b1 c1 uc0 uc1 dm dor) st = st := by
  induction segs with
  | nil => intro st; rfl
  | cons sg t ih =>
    intro st
    rw [List.foldl_cons,
      emitStep_conforming d iLU side0 side1 a0 b0 c0 a1 b1 c1 uc0 uc1 dm dor st sg
        (h sg (by simp))]
    exact ih (fun x hx => h x (by simp [hx])) st

theorem emitAll_conforming (d iLU side0 side1 a0 b0 c0 a1 b1 c1 : Nat)
    (uc0 uc1 : Nat → Nat) (dm : Nat → Nat) (dor : Nat → Bool) (segs : List MSeg)
    (h : ∀ sg ∈ segs, sg.lev0 = sg.lev1) :
    emitAll d iLU side0 side1 a0 b0 c0 a1 b1 c1 uc0 uc1 dm dor segs = ([], []) := by
  simp only [emitAll,
    emitFold_conforming d iLU side0 side1 a0 b0 c0 a1 b1 c1 uc0 uc1 dm dor segs h]

/-- Claim C6: on an already-conforming interface (equal tagged levels on
every merged segment) the finder emits no request for either patch and
reports changed = false; applying the repair leaves both bases untouched,
and a second run again emits nothing and reports false. -/
theorem claim_c6_conforming_idempotent (d : Nat) (bi : IfaceGeom) (t0 t1 : TreeQuery)
    (refine : TreeQuery → List Nat → TreeQuery)
    (hconf : ∀ sg ∈ mergedSegsOf d bi t0 t1, sg.lev0 = sg.lev1) :
    repairInterfaceFindElements d bi t0 t1 = ([], [], false) ∧
    applyRepair bi t0 t1 refine d = ((t0, t1), false) ∧
    applyRepair bi (applyRepair bi t0 t1 refine d).1.1
      (applyRepair bi t0 t1 refine d).1.2 refine d = ((t0, t1), false) := by
  have hfind : repairInterfaceFindElements d bi t0 t1 = ([], [], false) := by
    simp only [repairInterfaceFindElements]
    rw [emitAll_conforming _ _ _ _ _ _ _ _ _ _ _ _ _ _ _ hconf]
    simp
  have happ : applyRepair bi t0 t1 refine d = ((t0, t1), false) := by
    simp [applyRepair, hfind]
  exact ⟨hfind, happ, by rw [happ]; exact happ⟩

/-- Witness for C6 on a concrete conforming interface (both sides one
boundary element at level 2). -/
theorem claim_c6_witness :
    applyRepair ⟨1, 2, idMap, fun _ => true⟩ tW1 tW1 (fun t _ => t) 2
      = ((tW1, tW1), false) :=
  (claim_c6_conforming_idempotent 2 ⟨1, 2, idMap, fun _ => true⟩ tW1 tW1 (fun t _ => t)
    (by decide)).2.1

/-- Claim C9: the dimension dispatch of repairInterface accepts exactly the
dimensions 2 and 3; every other value hits the fatal assertion (modelled as
none) instead of emitting requests. -/
theorem claim_c9_dimension_dispatch (dim : Nat) (bi : IfaceGeom) (t0 t1 : TreeQuery)
    (refine : TreeQuery → List Nat → TreeQuery) :
    repairInterface dim bi t0 t1 refine = none ↔ ¬(dim = 2 ∨ dim = 3) := by
  unfold repairInterface
  by_cases h2 : dim = 2
  · simp [h2]
  · by_cases h3 : dim = 3 <;> simp [h2, h3]

/-- Claim C10: the repair mutates a basis only through its request list: a
false changed flag means both bases are returned untouched, refineElements
is reached only for a nonempty request list, and the flag is true exactly
when some request was emitted; the same holds on the 2-D path. -/
theorem claim_c10_refine_only_on_requests (d : Nat) (bi : IfaceGeom) (t0 t1 : TreeQuery)
    (refine : TreeQuery → List Nat → TreeQuery) :
    ((repairInterfaceFindElements d bi t0 t1).2.2 = false →
       applyRepair bi t0 t1 refine d = ((t0, t1), false)) ∧
    ((repairInterfaceFindElements d bi t0 t1).2.2 = true ↔
       ((repairInterfaceFindElements d bi t0 t1).1 ≠ [] ∨
        (repairInterfaceFindElements d bi t0 t1).2.1 ≠ [])) ∧
    ((repairInterfaceFindElements d bi t0 t1).1 = [] →
       (applyRepair bi t0 t1 refine d).1.1 = t0) ∧
    ((repairInterfaceFindElements d bi t0 t1).2.1 = [] →
       (applyRepair bi t0 t1 refine d).1.2 = t1) ∧
    (∀ st b, repairInterface2d bi t0 t1 refine = some (st, b) →
       ((b = false → st = (t0, t1)) ∧
        (b = true ↔ ∃ r, refPairs2d bi t0 t1 = some r ∧ (r.1 ≠ [] ∨ r.2 ≠ [])))) := by
  have hch : (repairInterfaceFindElements d bi t0 t1).2.2
      = (decide (0 < (repairInterfaceFindElements d bi t0 t1).1.length)
         || decide (0 < (repairInterfaceFindElements d bi t0 t1).2.1.length)) := rfl
  refine ⟨?_, ?_, ?_, ?_, ?_⟩
  · intro h
    simp [applyRepair, h]
  · rw [hch]
    simp [List.length_pos]
  · intro h
    dsimp only [applyRepair]
    split <;> simp [h]
  · intro h
    dsimp only [applyRepair]
    split <;> simp [h]
  · intro st b h
    unfold repairInterface2d at h
    cases hr : refPairs2d bi t0 t1 with
    | none => rw [hr] at h; cases h
    | some r =>
      rw [hr] at h
      have hst : st = (if 0 < r.1.length then refine t0 r.1 else t0,
          if 0 < r.2.length then refine t1 r.2 else t1) := by
        have := Option.some.inj h
        exact (congrArg Prod.fst this).symm
      have hb : b = (decide (0 < r.1.length) || decide (0 < r.2.length)) := by
        have := Option.some.inj h
        exact (congrArg Prod.snd this).symm
      constructor
      · intro hfalse
        rw [hfalse] at hb
        have h1 : ¬ 0 < r.1.length := by
          intro hx
          simp [hx] at hb
        have h2 : ¬ 0 < r.2.length := by
          intro hx
          simp [hx] at hb
        rw [hst, if_neg h1, if_neg h2]
      · rw [hb]
        constructor
        · intro htrue
          refine ⟨r, rfl, ?_⟩
          rcases Bool.or_eq_true_iff.mp htrue with hx | hx <;>
            [left; right] <;>
            · rw [← List.length_pos]
              exact of_decide_eq_true hx
        · rintro ⟨r2, hr2, hne⟩
          cases Option.some.inj hr2
          rcases hne with hx | hx <;> simp [List.length_pos.mpr hx]

/-- Claim C8: the 2-D repair asserts that both sides' sorted interface
tables terminate at the same final end coordinate; the assertion is fatal
(none), so every run that returns a value has equal last end knots in the
two tables. -/
theorem claim_c8_terminal_extent_assertion (bi : IfaceGeom) (t0 t1 : TreeQuery)
    (refine : TreeQuery → List Nat → TreeQuery)
    (h : (repairInterface2d bi t0 t1 refine).isSome = true) :
    ((table0 bi t0 t1).getLast?).map (fun r => r.2.1)
      = ((table1 bi t0 t1).getLast?).map (fun r => r.2.1) := by
  simp only [repairInterface2d, refPairs2d] at h
  cases h0 : (table0 bi t0 t1).getLast? with
  | none =>
    rw [h0] at h
    simp at h
  | some q0 =>
    cases h1 : (table1 bi t0 t1).getLast? with
    | none =>
      rw [h0, h1] at h
      simp at h
    | some q1 =>
      rw [h0, h1] at h
      by_cases he : q0.2.1 = q1.2.1
      · rw [Option.map_some', Option.map_some', he]
      · simp [he] at h

/-- Witness for C8 on a concrete conforming interface that passes the
assertion. -/
theorem claim_c8_witness :
    ((table0 ⟨1, 2, idMap, fun _ => true⟩ tW1 tW1).getLast?).map (fun r => r.2.1)
      = ((table1 ⟨1, 2, idMap, fun _ => true⟩ tW1 tW1).getLast?).map (fun r => r.2.1) :=
  claim_c8_terminal_extent_assertion ⟨1, 2, idMap, fun _ => true⟩ tW1 tW1 (fun t _ => t)
    (by simp [repairInterface2d, refPairs2d, table0, table1, sortByStart, intfcRows,
      indexLevelUse, upperCornAt, tW1, idMap, List.insertionSort, mergeIntfc, refLoop2d,
      refBox0, refBox1])

end Gismo
